import Mathlib

/-!
# Concurrent file downloader (`main.go`)

A shallow embedding of `ConcurrentFileDownloader` and of the pieces it is made of:

* the data model (`Result`, Go `error` values, HTTP responses);
* the lexical path functions of Go's `path/filepath` (Unix) that the program calls;
* the worker goroutine (lines 96-136) as a function from the results of its
  library calls to the trace of effects it performs;
* the limiter / result channel / wait group as a scheduler over worker traces;
* the aggregation loop and the final return (lines 145-163).

Library calls whose result depends on the outside world (`os.Create`, `http.Get`,
`io.Copy`, the clock) take their result from a `StepResults` record, so that every
combination of outcomes is an input of the model.
-/

namespace Downloader

/-! ## Data model -/

/-- Go `error` values handled by the program: either an error handed back by a library
call (`os.MkdirAll`, `os.Create`, `http.Get`, `io.Copy`), known by its message, or the one
built at line 123 by `fmt.Errorf("Bad Request %s\n", response.Status)`. -/
inductive GoError where
  | lib (msg : String)
  | badRequest (status : String)
  deriving DecidableEq

/-- The `Error()` string of an error value. -/
def GoError.Error : GoError → String
  | .lib msg => msg
  | .badRequest status => "Bad Request " ++ status ++ "\n"

/-- The `Result` struct of lines 15-21. `Error = none` is Go's `nil`; `Size` is an `int64`
and `Duration` a `time.Duration` (nanoseconds, `int64`). -/
structure Result where
  URL : String
  Size : Int
  Error : Option GoError
  Filename : String
  Duration : Int
  deriving DecidableEq

/-- The fields of `*http.Response` the program reads. -/
structure Response where
  StatusCode : Int
  Status : String
  deriving DecidableEq

/-- What `http.Get` hands back. By its contract a nil error comes with a non-nil response
(`ok`); an error normally comes with a nil response (`fail`); the one exception is a failed
redirect check, where both the last response and an error are returned (`failWithResponse`). -/
inductive GetResult where
  | ok (response : Response)
  | fail (err : String)
  | failWithResponse (response : Response) (err : String)
  deriving DecidableEq

/-- The response of a `GetResult`, when it is not nil. -/
def GetResult.response? : GetResult → Option Response
  | .ok r => some r
  | .fail _ => none
  | .failWithResponse r _ => some r

/-- The error of a `GetResult`, when it is not nil. -/
def GetResult.err? : GetResult → Option GoError
  | .ok _ => none
  | .fail e => some (.lib e)
  | .failWithResponse _ e => some (.lib e)

/-- The results of the library calls one worker makes: `create` is the error of `os.Create`
(`none`: the file was created), `get` the result of `http.Get`, `copyWritten`/`copyErr` the
pair returned by `io.Copy`, and `now` the clock reading (nanoseconds) taken by
`time.Since` at line 133. Library errors are given by their message. -/
structure StepResults where
  create : Option String
  get : GetResult
  copyWritten : Int
  copyErr : Option String
  now : Int
  deriving DecidableEq

/-- The constant `http.StatusOK`. -/
def StatusOK : Int := 200

/-! ## `path/filepath` (Unix) -/

/-- The predicate `os.IsPathSeparator` on Unix. -/
def isPathSeparator (c : Char) : Bool := c == '/'

/-- Drops the trailing separators of a path given in reverse. -/
def dropSeparators : List Char → List Char
  | [] => []
  | c :: cs => if isPathSeparator c then dropSeparators cs else c :: cs

/-- Takes, from a path given in reverse, the characters before the first separator. -/
def lastElement : List Char → List Char
  | [] => []
  | c :: cs => if isPathSeparator c then [] else c :: lastElement cs

/-- Go's `filepath.Base` on Unix: the last element of the path, after removing trailing
slashes; `"."` for the empty path and `"/"` for a path of slashes only. -/
def Base (path : String) : String :=
  if path.data = [] then "."
  else
    let stripped := dropSeparators path.data.reverse
    let last := (lastElement stripped).reverse
    if last = [] then "/" else String.mk last

/-- The backtracking of `filepath.Clean` at a `..` element: starting from write index `w`,
moves left while the index is above `dotdot` and the character there is not a separator. -/
def backtrack (out : List Char) (dotdot : Nat) : Nat → Nat
  | 0 => 0
  | w + 1 =>
    if dotdot < w + 1 && !isPathSeparator (out.getD (w + 1) '/') then backtrack out dotdot w
    else w + 1

/-- The main loop of Go's `filepath.Clean` on Unix, over the characters still to be read
(`path[r:]`), the buffer written so far (`out`) and the index `dotdot`. One round handles
one path element; the first argument bounds the number of rounds. -/
def cleanLoop (rooted : Bool) : Nat → List Char → List Char → Nat → List Char
  | 0, _, out, _ => out
  | _ + 1, [], out, _ => out
  | fuel + 1, c :: rest, out, dotdot =>
    if isPathSeparator c then
      -- empty path element
      cleanLoop rooted fuel rest out dotdot
    else if c == '.' && (rest.isEmpty || isPathSeparator (rest.headD '/')) then
      -- . element
      cleanLoop rooted fuel rest out dotdot
    else if c == '.' && rest.head? == some '.'
        && (rest.tail.isEmpty || isPathSeparator (rest.tail.headD '/')) then
      -- .. element: remove to last separator
      if dotdot < out.length then
        cleanLoop rooted fuel rest.tail (out.take (backtrack out dotdot (out.length - 1))) dotdot
      else if !rooted then
        let out1 := if 0 < out.length then out ++ ['/'] else out
        let out2 := out1 ++ ['.', '.']
        cleanLoop rooted fuel rest.tail out2 out2.length
      else
        cleanLoop rooted fuel rest.tail out dotdot
    else
      -- real path element: add slash if needed, then copy the element
      let out1 :=
        if (rooted && out.length != 1) || (!rooted && out.length != 0) then out ++ ['/'] else out
      cleanLoop rooted fuel ((c :: rest).dropWhile (fun x => !isPathSeparator x))
        (out1 ++ (c :: rest).takeWhile (fun x => !isPathSeparator x)) dotdot

/-- Go's `filepath.Clean` on Unix. -/
def Clean (path : String) : String :=
  match path.data with
  | [] => "."
  | c :: rest =>
    let rooted := isPathSeparator c
    let out :=
      if rooted then cleanLoop rooted (rest.length + 1) rest ['/'] 1
      else cleanLoop rooted (rest.length + 2) (c :: rest) [] 0
    if out = [] then "." else String.mk out

/-- Go's `filepath.Join` on Unix: the elements from the first non-empty one on are joined
with `/` and the result is cleaned; `""` when every element is empty. -/
def Join : List String → String
  | [] => ""
  | e :: es => if e = "" then Join es else Clean ("/".intercalate (e :: es))

/-! ## The clock -/

/-- The largest `time.Duration`. -/
def maxDuration : Int := 2 ^ 63 - 1

/-- The smallest `time.Duration`. -/
def minDuration : Int := -(2 ^ 63)

/-- Go's `time.Since(t)` when the clock reads `now`: the difference `now - t`, saturated to
the range of `time.Duration`. -/
def timeSince (t now : Int) : Int := max minDuration (min maxDuration (now - t))

/-! ## The worker goroutine (lines 96-136) -/

/-- The effects a worker performs, in program order.
`create path created` is `os.Create(path)` and whether it created the file; `nilDeref` is the
evaluation of `response.Body` on a nil `response`, which panics; `fatal` is the end of the
process once the deferred calls of a panicking goroutine have run. -/
inductive Event where
  | acquire
  | create (path : String) (created : Bool)
  | get (url : String)
  | remove (name : String)
  | send (r : Result)
  | copy
  | closeBody
  | closeFile
  | release
  | done
  | nilDeref
  | fatal
  deriving DecidableEq

/-- The worker from line 119 on, reached with a non-nil `response`; `body` is the trace so
far and `defers` the deferred calls, last registered first. -/
def afterResponse (timeStart : Int) (url fileName : String) (w : StepResults)
    (response : Response) (body defers : List Event) : List Event :=
  -- defer response.Body.Close()
  let defers := Event.closeBody :: defers
  if response.StatusCode ≠ StatusOK then
    -- os.Remove(url); resultChannel <- Result{URL: url, Error: fmt.Errorf(...)}; return
    body ++ [Event.remove url,
      Event.send { URL := url, Size := 0, Error := some (.badRequest response.Status),
                   Filename := "", Duration := 0 }] ++ defers
  else
    -- size, err := io.Copy(output, response.Body)
    match w.copyErr with
    | some err =>
      body ++ [Event.copy,
        Event.send { URL := url, Size := 0, Error := some (.lib err), Filename := "",
                     Duration := 0 }] ++ defers
    | none =>
      -- timeSince := time.Since(timeStart)
      body ++ [Event.copy,
        Event.send { URL := url, Size := w.copyWritten, Error := none, Filename := fileName,
                     Duration := timeSince timeStart w.now }] ++ defers

set_option linter.unusedVariables false in
/-- The goroutine started for one URL (lines 96-136), given the variables it captures
(`destDir`, `timeStart`) and the results of its library calls: the trace of its effects.
There is no `return` after the sends of lines 110 and 117, so execution goes on. -/
def worker (destDir : String) (timeStart : Int) (url : String) (w : StepResults) : List Event :=
  -- defer wg.Done(); limiter <- struct{}{}; defer func() { <-limiter }()
  let defers := [Event.release, Event.done]
  let fileName := Base url
  let filePath := Join [fileName]
  -- output, err := os.Create(filePath)
  let body := [Event.acquire, Event.create filePath w.create.isNone]
  let body :=
    match w.create with
    | some err =>
      body ++ [Event.send { URL := url, Size := 0, Error := some (.lib err), Filename := "",
                            Duration := 0 }]
    | none => body
  -- defer output.Close()
  let defers := Event.closeFile :: defers
  -- response, err := http.Get(url)
  let body := body ++ [Event.get url]
  match w.get with
  | .ok response => afterResponse timeStart url fileName w response body defers
  | .failWithResponse response err =>
    afterResponse timeStart url fileName w response
      (body ++ [Event.remove url,
        Event.send { URL := url, Size := 0, Error := some (.lib err), Filename := "",
                     Duration := 0 }])
      defers
  | .fail err =>
    -- response is nil: `defer response.Body.Close()` panics, the deferred calls run, the
    -- process dies
    body ++ [Event.remove url,
      Event.send { URL := url, Size := 0, Error := some (.lib err), Filename := "",
                   Duration := 0 },
      Event.nilDeref] ++ defers ++ [Event.fatal]

/-- The Results a trace sends on `resultChannel`, in order. -/
def sends : List Event → List Result
  | [] => []
  | .send r :: es => r :: sends es
  | _ :: es => sends es

/-- The URLs a trace requests with `http.Get`, in order. -/
def gets : List Event → List String
  | [] => []
  | .get url :: es => url :: gets es
  | _ :: es => gets es

/-- The names a trace passes to `os.Remove`, in order. -/
def removes : List Event → List String
  | [] => []
  | .remove name :: es => name :: removes es
  | _ :: es => removes es

/-- The paths at which a trace calls `os.Create`, in order. -/
def createdAt : List Event → List String
  | [] => []
  | .create path _ :: es => path :: createdAt es
  | _ :: es => createdAt es

/-- Whether a trace ends in a panic that kills the process. -/
def panics (es : List Event) : Bool := es.contains Event.fatal

/-- The effect of one event on the set of existing files (`os.Create` adds its path when it
succeeds, `os.Remove` deletes the file of that name). -/
def applyEvent (files : List String) : Event → List String
  | .create path true => if path ∈ files then files else path :: files
  | .remove name => files.filter (fun f => f ≠ name)
  | _ => files

/-- The files that exist after a trace, starting from `files`. -/
def filesAfter (files : List String) (es : List Event) : List String :=
  es.foldl applyEvent files

/-! ## Limiter, result channel and wait group -/

/-- The event is the send on `limiter` of line 100. -/
def Event.isAcquire : Event → Bool
  | .acquire => true
  | _ => false

/-- The event is the deferred receive from `limiter` of line 101. -/
def Event.isRelease : Event → Bool
  | .release => true
  | _ => false

/-- A launched goroutine: the events it has performed and those still ahead of it. -/
structure Task where
  executed : List Event
  pending : List Event
  deriving DecidableEq

/-- The task has sent on `limiter` (line 100) and its deferred receive (line 101) has not
run yet: it holds a slot. -/
def Task.holding (t : Task) : Bool :=
  t.executed.any Event.isAcquire && !t.executed.any Event.isRelease

/-- The task performs its next event. -/
def Task.advance (t : Task) : Task :=
  match t.pending with
  | [] => t
  | e :: rest => { executed := t.executed ++ [e], pending := rest }

/-- The state of a run after the launch loop: the goroutines, the number of elements
buffered in `limiter`, the Results the aggregation loop has received so far (arrival
order) and whether the process was killed by a panic. -/
structure Sys where
  tasks : List Task
  limiter : Nat
  received : List Result
  crashed : Bool
  deriving DecidableEq

/-- The tasks that hold a limiter slot. -/
def Sys.holders (s : Sys) : Nat := s.tasks.countP Task.holding

/-- Task `i` is given the processor for one event. A send on `limiter` (buffered channel of
capacity `cap`) goes through only while fewer than `cap` elements are buffered, a receive
from it only while it is not empty; a send on the unbuffered `resultChannel` is received by
the aggregation loop; `fatal` kills the process, after which nothing runs. -/
def step (cap : Nat) (s : Sys) (i : Nat) : Sys :=
  if s.crashed then s
  else
    match s.tasks[i]? with
    | none => s
    | some t =>
      match t.pending with
      | [] => s
      | .acquire :: _ =>
        if s.limiter < cap then
          { s with tasks := s.tasks.set i t.advance, limiter := s.limiter + 1 }
        else s
      | .release :: _ =>
        if 0 < s.limiter then
          { s with tasks := s.tasks.set i t.advance, limiter := s.limiter - 1 }
        else s
      | .send r :: _ =>
        { s with tasks := s.tasks.set i t.advance, received := s.received ++ [r] }
      | .fatal :: _ => { s with tasks := s.tasks.set i t.advance, crashed := true }
      | _ :: _ => { s with tasks := s.tasks.set i t.advance }

/-- The run under a schedule: the list of task indices in the order they get to move. -/
def run (cap : Nat) (sched : List Nat) (s : Sys) : Sys := sched.foldl (step cap) s

/-- The launch loop (lines 93-137): one goroutine per URL, numbered from `i`; `env` gives
the results of the library calls of each. -/
def launch (destDir : String) (timeStart : Int) (env : Nat → StepResults) :
    Nat → List String → List Task
  | _, [] => []
  | i, url :: urls =>
    { executed := [], pending := worker destDir timeStart url (env i) } ::
      launch destDir timeStart env (i + 1) urls

/-- The state when the aggregation loop starts. -/
def initial (destDir : String) (timeStart : Int) (env : Nat → StepResults)
    (urls : List String) : Sys :=
  { tasks := launch destDir timeStart env 0 urls, limiter := 0, received := [],
    crashed := false }

/-! ## Aggregation loop and return (lines 145-163) -/

/-- Addition of `int64` values: the sum, wrapped into the range of `int64`. -/
def wrapInt64 (x : Int) : Int := (x + 2 ^ 63) % 2 ^ 64 - 2 ^ 63

/-- A line printed by the aggregation loop. -/
inductive Line where
  | errorDownloading (url msg : String)
  | downloaded (filename : String) (size duration : Int)
  deriving DecidableEq

/-- The variables of the aggregation loop, and what it printed. -/
structure Tally where
  totalSize : Int
  errors : List GoError
  printed : List Line
  deriving DecidableEq

/-- The body of the loop of lines 148-156, for one received Result. -/
def Tally.add (t : Tally) (result : Result) : Tally :=
  match result.Error with
  | some err =>
    { t with errors := t.errors ++ [err],
             printed := t.printed ++ [Line.errorDownloading result.URL err.Error] }
  | none =>
    { t with totalSize := wrapInt64 (t.totalSize + result.Size),
             printed := t.printed ++
               [Line.downloaded result.Filename result.Size result.Duration] }

/-- The loop of lines 145-156 over the Results received, in arrival order. -/
def aggregate (results : List Result) : Tally :=
  results.foldl Tally.add { totalSize := 0, errors := [], printed := [] }

/-- The error built at line 161 by `fmt.Errorf("Error Downloading: %+v", errors)`. -/
structure DownloadError where
  errors : List GoError
  deriving DecidableEq

/-- The `Error()` string of the aggregate error: `%+v` prints a slice of errors as their
messages, separated by spaces, between brackets. -/
def DownloadError.Error (e : DownloadError) : String :=
  "Error Downloading: [" ++ " ".intercalate (e.errors.map GoError.Error) ++ "]"

/-- Lines 160-163: the value returned after the loop. -/
def finish (t : Tally) : Option DownloadError :=
  if 0 < t.errors.length then some { errors := t.errors } else none

/-- How a call of `ConcurrentFileDownloader` ends: `mkdirError` when `os.MkdirAll` failed
and its error was returned at line 83; `returned` when the loop ended and line 161 or 163
returned (`totalSize` is the total printed at line 159); `crashed` when the process was
killed by a panic; `blocked` when some goroutine has not finished by the end of the
schedule. -/
inductive RunOutcome where
  | mkdirError (err : GoError)
  | returned (err : Option DownloadError) (totalSize : Int)
  | crashed
  | blocked
  deriving DecidableEq

/-- The function `ConcurrentFileDownloader` (lines 80-164). `mkdir` is the error of
`os.MkdirAll`, `timeStart` the clock reading of line 92, `env` the results of the library
calls of each goroutine and `sched` the order in which the goroutines move. `make` panics
on a negative capacity. The result channel is closed, and the loop ends, once every
goroutine has run to its end. -/
def ConcurrentFileDownloader (mkdir : Option String) (urls : List String) (destDir : String)
    (maxConcurrent : Int) (timeStart : Int) (env : Nat → StepResults) (sched : List Nat) :
    RunOutcome :=
  match mkdir with
  | some err => .mkdirError (.lib err)
  | none =>
    if maxConcurrent < 0 then .crashed
    else
      let s := run maxConcurrent.toNat sched (initial destDir timeStart env urls)
      if s.crashed then .crashed
      else if s.tasks.all (fun t => t.pending.isEmpty) then
        let t := aggregate s.received
        .returned (finish t) t.totalSize
      else .blocked

/-! ## Notions used to state the properties -/

/-- The line the loop of lines 148-156 prints for one received Result. -/
def printedLine (result : Result) : Line :=
  match result.Error with
  | some err => Line.errorDownloading result.URL err.Error
  | none => Line.downloaded result.Filename result.Size result.Duration

/-- The event is part of the transfer: the file creation, the request, a removal, a send on
`resultChannel`, the body copy, the deferred closes, or the nil dereference of line 119. -/
def Event.isTransfer : Event → Bool
  | .create _ _ => true
  | .get _ => true
  | .remove _ => true
  | .send _ => true
  | .copy => true
  | .closeBody => true
  | .closeFile => true
  | .nilDeref => true
  | _ => false

/-- The next event of the task is part of its transfer: the task is executing it. -/
def Task.transferring (t : Task) : Bool :=
  match t.pending with
  | [] => false
  | e :: _ => e.isTransfer

/-- The tasks executing their transfer. -/
def Sys.transferring (s : Sys) : Nat := s.tasks.countP Task.transferring

/-- The sizes of the successful Results among `results`, in arrival order. -/
def successSizes (results : List Result) : List Int :=
  (results.filter (fun r => r.Error.isNone)).map Result.Size

/-- The events touch the limiter nowhere. -/
def noLimiter : List Event → Bool
  | [] => true
  | e :: es => !e.isAcquire && !e.isRelease && noLimiter es

/-- The events hold no part of the transfer. -/
def noTransfer : List Event → Bool
  | [] => true
  | e :: es => !e.isTransfer && noTransfer es

/-- The events hold no send on the limiter and exactly one receive from it, and what comes
after that receive touches neither the limiter nor the transfer. -/
def releasesOnce : List Event → Bool
  | [] => false
  | e :: es =>
    if e.isRelease then noLimiter es && noTransfer es else !e.isAcquire && releasesOnce es

/-- The shape of a task with respect to the limiter: not started, with a trace that acquires
first and then releases once; or holding, with one release ahead; or released, with nothing
more to do on the limiter nor in the transfer. -/
def Task.ok (t : Task) : Prop :=
  (t.holding = false ∧
    ∃ p, t.pending = Event.acquire :: p ∧ t.executed = [] ∧ releasesOnce p = true)
  ∨ (t.holding = true ∧ releasesOnce t.pending = true)
  ∨ (t.holding = false ∧ t.executed.any Event.isRelease = true ∧ noLimiter t.pending = true
      ∧ noTransfer t.pending = true)

/-- The invariant of a run: every task has the limiter shape, and the tasks holding a slot
are as many as the elements buffered in the limiter, at most its capacity. -/
def Sys.inv (cap : Nat) (s : Sys) : Prop :=
  (∀ t ∈ s.tasks, t.ok) ∧ s.holders = s.limiter ∧ s.limiter ≤ cap

/-- A URL whose last path element is `a.jpg`. -/
def urlA : String := "https://example.com/files/a.jpg"

/-- A URL whose last path element is `b.jpg`. -/
def urlB : String := "https://example.com/files/b.jpg"

/-- The file is created, the server answers 200 and 10 bytes are copied; the clock reads 8s
when the copy ends. -/
def downloaded : StepResults :=
  { create := none, get := .ok { StatusCode := 200, Status := "200 OK" },
    copyWritten := 10, copyErr := none, now := 8000000000 }

/-- The file cannot be created; the server answers 404. -/
def createDenied : StepResults :=
  { create := some "open a.jpg: permission denied",
    get := .ok { StatusCode := 404, Status := "404 Not Found" },
    copyWritten := 0, copyErr := none, now := 8000000000 }

/-- The file is created; the request fails before any response (no such host). -/
def lookupFailed : StepResults :=
  { create := none, get := .fail "dial tcp: lookup example.com: no such host",
    copyWritten := 0, copyErr := none, now := 1000000000 }

/-- The file is created, the server answers 404. -/
def notFound : StepResults :=
  { create := none, get := .ok { StatusCode := 404, Status := "404 Not Found" },
    copyWritten := 0, copyErr := none, now := 2000000000 }

/-- The file is created, the server answers 200, the copy breaks after 4 bytes. -/
def copyBroken : StepResults :=
  { create := none, get := .ok { StatusCode := 200, Status := "200 OK" },
    copyWritten := 4, copyErr := some "unexpected EOF", now := 3000000000 }

/-- The file is created, the server answers 204 with an empty body, the copy succeeds. -/
def noContent : StepResults :=
  { create := none, get := .ok { StatusCode := 204, Status := "204 No Content" },
    copyWritten := 0, copyErr := none, now := 2000000000 }

/-! ## Properties of the aggregation loop -/

theorem wrapInt64_of_inRange (x : Int) (h1 : -(2 ^ 63) ≤ x) (h2 : x < 2 ^ 63) :
    wrapInt64 x = x := by
  unfold wrapInt64
  omega

theorem wrapInt64_inRange (x : Int) : -(2 ^ 63) ≤ wrapInt64 x ∧ wrapInt64 x < 2 ^ 63 := by
  unfold wrapInt64
  omega

theorem wrapInt64_add_left (a b : Int) : wrapInt64 (wrapInt64 a + b) = wrapInt64 (a + b) := by
  unfold wrapInt64
  omega

theorem foldl_add_errors (results : List Result) (t : Tally) :
    (results.foldl Tally.add t).errors = t.errors ++ results.filterMap Result.Error := by
  induction results generalizing t with
  | nil => simp
  | cons r rs ih =>
    rw [List.foldl_cons, ih]
    cases h : r.Error with
    | none => simp [Tally.add, h, List.filterMap_cons]
    | some e => simp [Tally.add, h, List.filterMap_cons]

theorem foldl_add_printed (results : List Result) (t : Tally) :
    (results.foldl Tally.add t).printed = t.printed ++ results.map printedLine := by
  induction results generalizing t with
  | nil => simp
  | cons r rs ih =>
    rw [List.foldl_cons, ih]
    cases h : r.Error with
    | none => simp [Tally.add, printedLine, h]
    | some e => simp [Tally.add, printedLine, h]

theorem foldl_add_totalSize (results : List Result) (t : Tally) :
    wrapInt64 (results.foldl Tally.add t).totalSize
      = wrapInt64 (t.totalSize + (successSizes results).sum) := by
  induction results generalizing t with
  | nil => simp [successSizes]
  | cons r rs ih =>
    rw [List.foldl_cons, ih]
    cases h : r.Error with
    | none =>
      simp only [Tally.add, h, successSizes, List.filter_cons, Option.isNone_none, if_true,
        List.map_cons, List.sum_cons]
      rw [wrapInt64_add_left, add_assoc]
    | some e =>
      simp [Tally.add, h, successSizes, List.filter_cons]

theorem foldl_add_inRange (results : List Result) (t : Tally)
    (h : wrapInt64 t.totalSize = t.totalSize) :
    wrapInt64 (results.foldl Tally.add t).totalSize = (results.foldl Tally.add t).totalSize := by
  induction results generalizing t with
  | nil => simpa using h
  | cons r rs ih =>
    rw [List.foldl_cons]
    apply ih
    cases hr : r.Error with
    | none =>
      simp only [Tally.add, hr]
      have := wrapInt64_inRange (t.totalSize + r.Size)
      exact wrapInt64_of_inRange _ this.1 this.2
    | some e => simpa [Tally.add, hr] using h

theorem aggregate_totalSize (results : List Result) :
    (aggregate results).totalSize = wrapInt64 (successSizes results).sum := by
  have h1 := foldl_add_totalSize results { totalSize := 0, errors := [], printed := [] }
  have h2 := foldl_add_inRange results { totalSize := 0, errors := [], printed := [] }
    (by simp [wrapInt64])
  unfold aggregate
  rw [← h2, h1]
  simp

theorem aggregate_errors (results : List Result) :
    (aggregate results).errors = results.filterMap Result.Error := by
  simp [aggregate, foldl_add_errors]

theorem filterMap_error_length (results : List Result) :
    (results.filterMap Result.Error).length = results.countP (fun r => r.Error.isSome) := by
  induction results with
  | nil => simp
  | cons r rs ih =>
    cases h : r.Error with
    | none => simp [List.filterMap_cons, h, List.countP_cons, ih]
    | some e => simp [List.filterMap_cons, h, List.countP_cons, ih]

theorem successes_length (results : List Result) :
    (successSizes results).length + results.countP (fun r => r.Error.isSome)
      = results.length := by
  induction results with
  | nil => simp [successSizes]
  | cons r rs ih =>
    cases h : r.Error with
    | none =>
      simp [successSizes, List.filter_cons, h, List.countP_cons] at ih ⊢
      omega
    | some e =>
      simp [successSizes, List.filter_cons, h, List.countP_cons] at ih ⊢
      omega

theorem worker_shape (destDir : String) (timeStart : Int) (url : String) (w : StepResults) :
    ∃ p, worker destDir timeStart url w = Event.acquire :: p ∧ releasesOnce p = true := by
  rcases w with ⟨create, get, copyWritten, copyErr, now⟩
  cases create <;> cases get <;> cases copyErr <;>
    simp [worker, afterResponse, releasesOnce, noLimiter, noTransfer, Event.isAcquire,
      Event.isRelease, Event.isTransfer] <;>
    split <;>
    simp [releasesOnce, noLimiter, noTransfer, Event.isAcquire, Event.isRelease,
      Event.isTransfer]

theorem countP_set_task (p : Task → Bool) (l : List Task) (i : Nat) (t t' : Task)
    (h : l[i]? = some t) :
    (l.set i t').countP p + (if p t = true then 1 else 0)
      = l.countP p + (if p t' = true then 1 else 0) := by
  induction l generalizing i with
  | nil => simp at h
  | cons a as ih =>
    cases i with
    | zero =>
      simp at h
      subst h
      simp [List.countP_cons]
      omega
    | succ j =>
      simp at h
      have := ih j h
      simp [List.countP_cons] at this ⊢
      omega

theorem mem_set_ok (l : List Task) (i : Nat) (t' : Task) (h : ∀ t ∈ l, t.ok) (h' : t'.ok) :
    ∀ t ∈ l.set i t', t.ok := by
  intro t ht
  rcases List.mem_or_eq_of_mem_set ht with h1 | h1
  · exact h t h1
  · exact h1 ▸ h'

/-- A task that performs an event other than a limiter operation keeps its shape and its
holding status. -/
theorem advance_other (t : Task) (e : Event) (rest : List Event) (hp : t.pending = e :: rest)
    (ha : e.isAcquire = false) (hr : e.isRelease = false) (hok : t.ok) :
    t.advance.ok ∧ t.advance.holding = t.holding := by
  have hadv : t.advance = { executed := t.executed ++ [e], pending := rest } := by
    simp [Task.advance, hp]
  have hhold : t.advance.holding = t.holding := by
    simp [hadv, Task.holding, List.any_append, ha, hr]
  refine ⟨?_, hhold⟩
  rcases hok with ⟨_, p, hp', _, _⟩ | ⟨h1, h2⟩ | ⟨h1, h2, h3, h4⟩
  · rw [hp] at hp'
    injection hp' with he _
    subst he
    simp [Event.isAcquire] at ha
  · right; left
    refine ⟨hhold ▸ h1, ?_⟩
    rw [hp] at h2
    simp [releasesOnce, hr, ha] at h2
    simpa [hadv] using h2
  · right; right
    refine ⟨hhold ▸ h1, ?_, ?_, ?_⟩
    · simp [hadv, List.any_append, h2]
    · rw [hp] at h3
      simp [noLimiter] at h3
      simpa [hadv] using h3.2
    · rw [hp] at h4
      simp [noTransfer] at h4
      simpa [hadv] using h4.2

/-- A task whose next event is the send on the limiter was not holding and holds after it. -/
theorem advance_acquire (t : Task) (rest : List Event) (hp : t.pending = Event.acquire :: rest)
    (hok : t.ok) : t.advance.ok ∧ t.holding = false ∧ t.advance.holding = true := by
  have hadv : t.advance = { executed := t.executed ++ [Event.acquire], pending := rest } := by
    simp [Task.advance, hp]
  rcases hok with ⟨h0, p, hp', hex, hrel⟩ | ⟨h1, h2⟩ | ⟨h1, h2, h3, _⟩
  · rw [hp] at hp'
    injection hp' with _ hrest
    subst hrest
    have hh : t.advance.holding = true := by
      simp [hadv, hex, Task.holding, Event.isAcquire, Event.isRelease]
    exact ⟨Or.inr (Or.inl ⟨hh, by simpa [hadv] using hrel⟩), h0, hh⟩
  · rw [hp] at h2
    simp [releasesOnce, Event.isAcquire, Event.isRelease] at h2
  · rw [hp] at h3
    simp [noLimiter, Event.isAcquire] at h3

/-- A task whose next event is the receive from the limiter was holding and no longer holds
after it. -/
theorem advance_release (t : Task) (rest : List Event) (hp : t.pending = Event.release :: rest)
    (hok : t.ok) : t.advance.ok ∧ t.holding = true ∧ t.advance.holding = false := by
  have hadv : t.advance = { executed := t.executed ++ [Event.release], pending := rest } := by
    simp [Task.advance, hp]
  have hh : t.advance.holding = false := by
    simp [hadv, Task.holding, List.any_append, Event.isRelease]
  rcases hok with ⟨h0, p, hp', hex, hrel⟩ | ⟨h1, h2⟩ | ⟨h1, h2, h3, _⟩
  · rw [hp] at hp'
    injection hp' with he _
    cases he
  · rw [hp] at h2
    simp [releasesOnce, Event.isRelease] at h2
    refine ⟨Or.inr (Or.inr ⟨hh, ?_, ?_, ?_⟩), h1, hh⟩
    · simp [hadv, List.any_append, Event.isRelease]
    · simpa [hadv] using h2.1
    · simpa [hadv] using h2.2
  · rw [hp] at h3
    simp [noLimiter, Event.isRelease] at h3

/-- Replacing task `i` by a task of the same holding status keeps the invariant, whatever
happens to the received Results and to the crash flag. -/
theorem inv_set_same (cap : Nat) (s : Sys) (i : Nat) (t t' : Task) (received : List Result)
    (crashed : Bool) (ht : s.tasks[i]? = some t) (hok : t'.ok) (hh : t'.holding = t.holding)
    (h : s.inv cap) :
    Sys.inv cap { tasks := s.tasks.set i t', limiter := s.limiter, received := received,
                  crashed := crashed } := by
  obtain ⟨h1, h2, h3⟩ := h
  refine ⟨mem_set_ok _ _ _ h1 hok, ?_, h3⟩
  have := countP_set_task Task.holding s.tasks i t t' ht
  rw [hh] at this
  simp only [Sys.holders] at h2 ⊢
  omega

theorem step_inv (cap : Nat) (s : Sys) (i : Nat) (h : s.inv cap) : (step cap s i).inv cap := by
  by_cases hc : s.crashed = true
  · simpa [step, hc] using h
  · cases ht : s.tasks[i]? with
    | none => simpa [step, hc, ht] using h
    | some t =>
      have hmem : t ∈ s.tasks := List.getElem?_mem ht
      have hok : t.ok := h.1 t hmem
      cases hp : t.pending with
      | nil => simpa [step, hc, ht, hp] using h
      | cons e rest =>
        cases e with
        | acquire =>
          by_cases hl : s.limiter < cap
          · obtain ⟨a1, a2, a3⟩ := advance_acquire t rest hp hok
            have hcount := countP_set_task Task.holding s.tasks i t t.advance ht
            rw [a2, a3] at hcount
            obtain ⟨h1, h2, h3⟩ := h
            have hstep : step cap s i
                = { s with tasks := s.tasks.set i t.advance, limiter := s.limiter + 1 } := by
              simp [step, hc, ht, hp, hl]
            rw [hstep]
            simp only [Sys.holders] at h2
            simp at hcount
            refine ⟨mem_set_ok _ _ _ h1 a1, ?_, ?_⟩
            · simp only [Sys.holders]
              omega
            · show s.limiter + 1 ≤ cap
              omega
          · simpa [step, hc, ht, hp, hl] using h
        | release =>
          by_cases hl : 0 < s.limiter
          · obtain ⟨a1, a2, a3⟩ := advance_release t rest hp hok
            have hcount := countP_set_task Task.holding s.tasks i t t.advance ht
            rw [a2, a3] at hcount
            obtain ⟨h1, h2, h3⟩ := h
            have hstep : step cap s i
                = { s with tasks := s.tasks.set i t.advance, limiter := s.limiter - 1 } := by
              simp [step, hc, ht, hp, hl]
            rw [hstep]
            simp only [Sys.holders] at h2
            simp at hcount
            refine ⟨mem_set_ok _ _ _ h1 a1, ?_, ?_⟩
            · simp only [Sys.holders]
              omega
            · show s.limiter - 1 ≤ cap
              omega
          · simpa [step, hc, ht, hp, hl] using h
        | send r =>
          obtain ⟨a1, a2⟩ := advance_other t _ rest hp rfl rfl hok
          simpa [step, hc, ht, hp] using inv_set_same cap s i t t.advance _ _ ht a1 a2 h
        | fatal =>
          obtain ⟨a1, a2⟩ := advance_other t _ rest hp rfl rfl hok
          simpa [step, hc, ht, hp] using inv_set_same cap s i t t.advance _ _ ht a1 a2 h
        | _ =>
          obtain ⟨a1, a2⟩ := advance_other t _ rest hp rfl rfl hok
          simpa [step, hc, ht, hp] using inv_set_same cap s i t t.advance _ _ ht a1 a2 h

theorem run_inv (cap : Nat) (sched : List Nat) (s : Sys) (h : s.inv cap) :
    (run cap sched s).inv cap := by
  induction sched generalizing s with
  | nil => exact h
  | cons i is ih => exact ih _ (step_inv cap s i h)

theorem launch_ok (destDir : String) (timeStart : Int) (env : Nat → StepResults)
    (urls : List String) (i : Nat) :
    ∀ t ∈ launch destDir timeStart env i urls, t.ok ∧ t.holding = false := by
  induction urls generalizing i with
  | nil => simp [launch]
  | cons url urls ih =>
    intro t ht
    simp only [launch, List.mem_cons] at ht
    rcases ht with ht | ht
    · subst ht
      obtain ⟨p, hp, hr⟩ := worker_shape destDir timeStart url (env i)
      have hh : Task.holding
          { executed := [], pending := worker destDir timeStart url (env i) } = false := by
        simp [Task.holding]
      exact ⟨Or.inl ⟨hh, p, hp, rfl, hr⟩, hh⟩
    · exact ih (i + 1) t ht

theorem initial_inv (cap : Nat) (destDir : String) (timeStart : Int) (env : Nat → StepResults)
    (urls : List String) : (initial destDir timeStart env urls).inv cap := by
  refine ⟨fun t ht => (launch_ok destDir timeStart env urls 0 t ht).1, ?_, Nat.zero_le _⟩
  simp only [initial, Sys.holders]
  rw [List.countP_eq_zero]
  intro t ht
  simp [(launch_ok destDir timeStart env urls 0 t ht).2]

/-! ## Runs that return -/

theorem run_crashed (cap : Nat) (sched : List Nat) (s : Sys) (h : s.crashed = true) :
    run cap sched s = s := by
  induction sched with
  | nil => rfl
  | cons i is ih =>
    have hs : step cap s i = s := by simp [step, h]
    simp only [run, List.foldl_cons, hs]
    exact ih

theorem run_append (cap : Nat) (xs ys : List Nat) (s : Sys) :
    run cap (xs ++ ys) s = run cap ys (run cap xs s) := by
  simp [run, List.foldl_append]

/-- C2. For a sequence of received Results of which exactly `k` carry an error, the
aggregation loop ends with `k` errors (the causes, in arrival order), the other
`N - k` Results are the successes, `totalSize` is the `int64` sum of their sizes (the exact
sum whenever that fits in an `int64`), and exactly one line was printed per Result, in
arrival order. -/
theorem aggregate_tally (results : List Result) (k : Nat)
    (hk : results.countP (fun r => r.Error.isSome) = k) :
    (aggregate results).errors.length = k
    ∧ (aggregate results).errors = results.filterMap Result.Error
    ∧ (successSizes results).length = results.length - k
    ∧ (aggregate results).totalSize = wrapInt64 (successSizes results).sum
    ∧ (-(2 ^ 63) ≤ (successSizes results).sum → (successSizes results).sum < 2 ^ 63 →
        (aggregate results).totalSize = (successSizes results).sum)
    ∧ (aggregate results).printed = results.map printedLine := by
  refine ⟨?_, aggregate_errors results, ?_, aggregate_totalSize results, ?_, ?_⟩
  · rw [aggregate_errors, filterMap_error_length, hk]
  · have := successes_length results
    omega
  · intro h1 h2
    rw [aggregate_totalSize, wrapInt64_of_inRange _ h1 h2]
  · simpa [aggregate] using foldl_add_printed results ⟨0, [], []⟩

/-- Three Results arrive, one of them a failure: one error is kept and the total is 30. -/
theorem aggregate_tally_witness :
    [Result.mk "u1" 10 none "a" 7, Result.mk "u2" 0 (some (.lib "refused")) "" 0,
      Result.mk "u3" 20 none "c" 9].countP (fun r => r.Error.isSome) = 1
    ∧ (aggregate [Result.mk "u1" 10 none "a" 7, Result.mk "u2" 0 (some (.lib "refused")) "" 0,
        Result.mk "u3" 20 none "c" 9]).errors.length = 1
    ∧ (aggregate [Result.mk "u1" 10 none "a" 7, Result.mk "u2" 0 (some (.lib "refused")) "" 0,
        Result.mk "u3" 20 none "c" 9]).totalSize = 30 := by
  have h := aggregate_tally [Result.mk "u1" 10 none "a" 7,
    Result.mk "u2" 0 (some (.lib "refused")) "" 0, Result.mk "u3" 20 none "c" 9] 1 (by decide)
  refine ⟨by decide, h.1, ?_⟩
  rw [h.2.2.2.2.1 (by decide) (by decide)]
  decide

/-- C1. The number of Results one worker sends is one, plus one when `os.Create` failed,
plus one when `http.Get` returned an error together with a response: there is no `return`
after the sends of lines 110 and 117. With a create error and a 404 answer the worker sends
two Results. -/
theorem worker_send_count (destDir : String) (timeStart : Int) (url : String)
    (w : StepResults) :
    (sends (worker destDir timeStart url w)).length
        = 1 + (if w.create.isSome then 1 else 0)
            + (if w.get.err?.isSome ∧ w.get.response?.isSome then 1 else 0)
    ∧ sends (worker "downloads" 0 urlA createDenied)
        = [{ URL := urlA, Size := 0, Error := some (.lib "open a.jpg: permission denied"),
             Filename := "", Duration := 0 },
           { URL := urlA, Size := 0, Error := some (.badRequest "404 Not Found"),
             Filename := "", Duration := 0 }] := by
  refine ⟨?_, by decide⟩
  rcases w with ⟨create, get, copyWritten, copyErr, now⟩
  cases create <;> cases get <;> cases copyErr <;>
    simp [worker, afterResponse, sends, GetResult.err?, GetResult.response?] <;>
    split <;> simp [sends]

/-- C4. When `http.Get` fails without a response, the worker panics on
`response.Body` (line 119), and a run with that one URL ends with the process killed, not
with a return. -/
theorem get_failure_crashes (url destDir : String) (maxConcurrent timeStart : Int)
    (w : StepResults) (err : String) (hcap : 1 ≤ maxConcurrent) (hget : w.get = .fail err) :
    panics (worker destDir timeStart url w) = true
    ∧ ConcurrentFileDownloader none [url] destDir maxConcurrent timeStart (fun _ => w)
        (List.replicate 11 0) = .crashed := by
  rcases w with ⟨create, get, copyWritten, copyErr, now⟩
  simp only at hget
  subst hget
  have h0 : ¬ maxConcurrent < 0 := by omega
  have h1 : 0 < maxConcurrent.toNat := by omega
  constructor
  · cases create <;> simp [worker, panics]
  · cases create <;>
      simp [ConcurrentFileDownloader, h0, h1, run, step, initial, launch, worker, Task.advance,
        List.replicate]

/-- One URL whose host cannot be resolved: the run ends in a crash. -/
theorem get_failure_crashes_witness :
    (1 : Int) ≤ 1 ∧ lookupFailed.get = .fail "dial tcp: lookup example.com: no such host"
    ∧ ConcurrentFileDownloader none [urlA] "downloads" 1 0 (fun _ => lookupFailed)
        (List.replicate 11 0) = .crashed :=
  ⟨by decide, rfl,
    (get_failure_crashes urlA "downloads" 1 0 lookupFailed
      "dial tcp: lookup example.com: no such host" (by decide) rfl).2⟩

/-- Two URLs, two slots: the first download would succeed, the request of the second fails
without a response. Once the second goroutine has run, the process is dead: no schedule
suffix lets the first one report its Result. -/
theorem one_failure_aborts_the_batch (rest : List Nat) :
    ConcurrentFileDownloader none [urlA, urlB] "downloads" 2 0
      (fun i => if i = 0 then downloaded else lookupFailed)
      ([0, 1, 1, 1, 1, 1, 1, 1, 1, 1, 1] ++ rest) = .crashed := by
  have hpre : (run 2 [0, 1, 1, 1, 1, 1, 1, 1, 1, 1, 1]
      (initial "downloads" 0 (fun i => if i = 0 then downloaded else lookupFailed)
        [urlA, urlB])).crashed = true := by decide
  have hrun := run_crashed 2 rest _ hpre
  simp only [ConcurrentFileDownloader]
  rw [if_neg (by decide)]
  show (if (run 2 ([0, 1, 1, 1, 1, 1, 1, 1, 1, 1, 1] ++ rest) _).crashed = true then _ else _)
    = _
  rw [run_append, hrun, hpre]
  rfl

/-- C5. A worker whose `os.Create` fails still issues its HTTP GET: exactly one request
is made for the URL, after the create error was sent. -/
theorem create_error_still_gets (destDir : String) (timeStart : Int) (url : String)
    (w : StepResults) (err : String) (hcreate : w.create = some err) :
    gets (worker destDir timeStart url w) = [url]
    ∧ ∃ rest, worker destDir timeStart url w
        = [Event.acquire, Event.create (Join [Base url]) false,
           Event.send { URL := url, Size := 0, Error := some (.lib err), Filename := "",
                        Duration := 0 },
           Event.get url] ++ rest := by
  rcases w with ⟨create, get, copyWritten, copyErr, now⟩
  simp only at hcreate
  subst hcreate
  cases get <;> cases copyErr <;>
    simp [worker, afterResponse, gets] <;>
    split <;> simp [gets]

/-- The file `a.jpg` cannot be created: one GET is made all the same. -/
theorem create_error_still_gets_witness :
    createDenied.create = some "open a.jpg: permission denied"
    ∧ (gets (worker "downloads" 0 urlA createDenied)).length = 1 :=
  ⟨rfl, by
    rw [(create_error_still_gets "downloads" 0 urlA createDenied
      "open a.jpg: permission denied" rfl).1]
    rfl⟩

/-- C6 as stated fails. The file `a.jpg` is created, the server answers 200 and the
copy breaks: after the task the file is still there. -/
theorem copy_failure_leaves_file :
    copyBroken.create = none ∧ copyBroken.copyErr = some "unexpected EOF"
    ∧ createdAt (worker "downloads" 0 urlA copyBroken) = ["a.jpg"]
    ∧ "a.jpg" ∈ filesAfter [] (worker "downloads" 0 urlA copyBroken) := by
  decide

/-- C6 amended. For a URL whose file was created and whose GET was answered 200, if the
body copy fails the worker calls `os.Remove` on nothing, and the file it created is still at
its path when the task ends. -/
theorem copy_failure_keeps_file (destDir : String) (timeStart : Int) (url : String)
    (w : StepResults) (response : Response) (err : String) (files : List String)
    (hcreate : w.create = none) (hget : w.get = .ok response)
    (hstatus : response.StatusCode = StatusOK) (hcopy : w.copyErr = some err) :
    removes (worker destDir timeStart url w) = []
    ∧ createdAt (worker destDir timeStart url w) = [Join [Base url]]
    ∧ Join [Base url] ∈ filesAfter files (worker destDir timeStart url w) := by
  rcases w with ⟨create, get, copyWritten, copyErr, now⟩
  simp only at hcreate hget hcopy
  subst hcreate hget hcopy
  refine ⟨?_, ?_, ?_⟩
  · simp [worker, afterResponse, hstatus, removes]
  · simp [worker, afterResponse, hstatus, createdAt]
  · simp only [worker, afterResponse, hstatus, filesAfter]
    by_cases h : Join [Base url] ∈ files <;> simp [applyEvent, h]

/-- The copy into `a.jpg` breaks: no removal, the file stays. -/
theorem copy_failure_keeps_file_witness :
    copyBroken.create = none ∧ copyBroken.get = .ok { StatusCode := 200, Status := "200 OK" }
    ∧ removes (worker "downloads" 0 urlA copyBroken) = []
    ∧ Join [Base urlA] ∈ filesAfter [] (worker "downloads" 0 urlA copyBroken) :=
  have h := copy_failure_keeps_file "downloads" 0 urlA copyBroken
    { StatusCode := 200, Status := "200 OK" } "unexpected EOF" [] rfl rfl rfl rfl
  ⟨rfl, rfl, h.1, h.2.2⟩

/-- On a 404 answer the worker calls `os.Remove` with the URL, not with the path it created:
the file `a.jpg` is still there after the task. -/
theorem status_failure_removes_url :
    createdAt (worker "downloads" 0 urlA notFound) = ["a.jpg"]
    ∧ removes (worker "downloads" 0 urlA notFound) = [urlA]
    ∧ "a.jpg" ∈ filesAfter [] (worker "downloads" 0 urlA notFound) := by
  decide

/-- C7 as stated fails. Status 204 lies in 200..299 and the copy would succeed, yet
the worker reports an HTTP-status failure. -/
theorem status_204_is_reported_as_failure :
    noContent.get.response? = some { StatusCode := 204, Status := "204 No Content" }
    ∧ (200 : Int) ≤ 204 ∧ (204 : Int) ≤ 299
    ∧ noContent.create = none ∧ noContent.copyErr = none
    ∧ sends (worker "downloads" 0 urlA noContent)
        = [{ URL := urlA, Size := 0, Error := some (.badRequest "204 No Content"),
             Filename := "", Duration := 0 }] := by
  decide

/-- C7 amended. For every response the worker receives, it reports an HTTP-status
failure (built from the response's status line) if and only if the status code differs from
`http.StatusOK` (200); with status 200 and a successful body copy it sends the success
Result, with nil error and the number of bytes copied as size. -/
theorem status_failure_iff_not_200 (destDir : String) (timeStart : Int) (url : String)
    (w : StepResults) (response : Response) (hresp : w.get.response? = some response) :
    ((∃ r ∈ sends (worker destDir timeStart url w),
          ∃ status, r.Error = some (.badRequest status))
        ↔ response.StatusCode ≠ StatusOK)
    ∧ (response.StatusCode ≠ StatusOK →
        { URL := url, Size := 0, Error := some (.badRequest response.Status), Filename := "",
          Duration := 0 } ∈ sends (worker destDir timeStart url w))
    ∧ (response.StatusCode = StatusOK → w.copyErr = none →
        { URL := url, Size := w.copyWritten, Error := none, Filename := Base url,
          Duration := timeSince timeStart w.now } ∈ sends (worker destDir timeStart url w)) := by
  rcases w with ⟨create, get, copyWritten, copyErr, now⟩
  by_cases hs : response.StatusCode = StatusOK <;>
    cases create <;> cases get <;> cases copyErr <;>
    simp_all [worker, afterResponse, sends, GetResult.response?]

/-- A 200 answer with 10 bytes copied yields the success Result; a 404 answer yields the
status failure. -/
theorem status_failure_iff_not_200_witness :
    downloaded.get.response? = some { StatusCode := 200, Status := "200 OK" }
    ∧ { URL := urlA, Size := 10, Error := none, Filename := "a.jpg", Duration := 8000000000 }
        ∈ sends (worker "downloads" 0 urlA downloaded) :=
  ⟨rfl, (status_failure_iff_not_200 "downloads" 0 urlA downloaded
    { StatusCode := 200, Status := "200 OK" } rfl).2.2 rfl rfl⟩

/-- C8. The worker creates its file at `filepath.Join(filepath.Base(url))`, whatever
`destDir` is: the directory is not part of the path. For `.../files/a.jpg` and the
directory `downloads` the file is created at `a.jpg`, not at `downloads/a.jpg`. -/
theorem created_path_ignores_destDir (destDir : String) (timeStart : Int) (url : String)
    (w : StepResults) :
    createdAt (worker destDir timeStart url w) = [Join [Base url]]
    ∧ createdAt (worker "downloads" 0 urlA downloaded) = ["a.jpg"]
    ∧ Join ["downloads", Base urlA] = "downloads/a.jpg" := by
  refine ⟨?_, by decide, by decide⟩
  rcases w with ⟨create, get, copyWritten, copyErr, now⟩
  cases create <;> cases get <;> cases copyErr <;>
    simp [worker, afterResponse, createdAt] <;>
    split <;> simp [createdAt]

/-- C10. The `Duration` of a success Result is the time from `timeStart`, the clock
reading taken once before the launch loop (line 92), to the end of the copy: the worker
reads no clock when its own transfer starts. -/
theorem duration_is_since_batch_start (destDir : String) (timeStart : Int) (url : String)
    (w : StepResults) (response : Response)
    (hcreate : w.create = none) (hget : w.get = .ok response)
    (hstatus : response.StatusCode = StatusOK) (hcopy : w.copyErr = none) :
    sends (worker destDir timeStart url w)
      = [{ URL := url, Size := w.copyWritten, Error := none, Filename := Base url,
           Duration := timeSince timeStart w.now }] := by
  rcases w with ⟨create, get, copyWritten, copyErr, now⟩
  simp only at hcreate hget hcopy
  subst hcreate hget hcopy
  simp [worker, afterResponse, hstatus, sends]

/-- The batch starts at 0s; a transfer that starts at 5s and ends at 8s took 3s, and is
reported with a duration of 8s. -/
theorem duration_is_since_batch_start_witness :
    downloaded.create = none ∧ downloaded.copyErr = none
    ∧ (sends (worker "downloads" 0 urlA downloaded)).map Result.Duration = [8000000000]
    ∧ timeSince 5000000000 downloaded.now = 3000000000 := by
  refine ⟨rfl, rfl, ?_, by decide⟩
  rw [duration_is_since_batch_start "downloads" 0 urlA downloaded
    { StatusCode := 200, Status := "200 OK" } rfl rfl rfl rfl]
  decide

/-! ## Claim about the limiter -/

theorem releasesOnce_split (p : List Event) (h : releasesOnce p = true) :
    ∃ pre post, p = pre ++ Event.release :: post ∧ noLimiter pre = true
      ∧ noLimiter post = true ∧ noTransfer post = true := by
  induction p with
  | nil => simp [releasesOnce] at h
  | cons e es ih =>
    by_cases hr : e.isRelease = true
    · simp [releasesOnce, hr] at h
      refine ⟨[], es, ?_, rfl, h.1, h.2⟩
      cases e <;> simp [Event.isRelease] at hr ⊢
    · simp [releasesOnce, hr] at h
      obtain ⟨pre, post, h1, h2, h3, h4⟩ := ih h.2
      refine ⟨e :: pre, post, by simp [h1], ?_, h3, h4⟩
      simp [noLimiter, h.1, hr, h2]

theorem finished_not_holding (t : Task) (hok : t.ok) (hp : t.pending = []) :
    t.holding = false := by
  rcases hok with ⟨h0, _⟩ | ⟨_, h2⟩ | ⟨h1, _⟩
  · exact h0
  · rw [hp] at h2
    simp [releasesOnce] at h2
  · exact h1

/-- A task whose next event is part of its transfer holds a limiter slot. -/
theorem transferring_holds (t : Task) (hok : t.ok) (ht : t.transferring = true) :
    t.holding = true := by
  rcases hok with ⟨_, p, hp, _, _⟩ | ⟨h1, _⟩ | ⟨_, _, _, h4⟩
  · simp [Task.transferring, hp, Event.isTransfer] at ht
  · exact h1
  · cases hpend : t.pending with
    | nil => simp [Task.transferring, hpend] at ht
    | cons e es =>
      rw [hpend] at h4
      simp [Task.transferring, hpend] at ht
      simp [noTransfer, ht] at h4

/-- The outcome of a call is read off the state its goroutines reach under the schedule. -/
theorem outcome_of_run (urls : List String) (destDir : String) (maxConcurrent timeStart : Int)
    (env : Nat → StepResults) (sched : List Nat) (hcap : 0 ≤ maxConcurrent) :
    ConcurrentFileDownloader none urls destDir maxConcurrent timeStart env sched
      = if (run maxConcurrent.toNat sched (initial destDir timeStart env urls)).crashed = true
        then .crashed
        else if (run maxConcurrent.toNat sched (initial destDir timeStart env urls)).tasks.all
            (fun t => t.pending.isEmpty) = true
        then .returned
          (finish (aggregate
            (run maxConcurrent.toNat sched (initial destDir timeStart env urls)).received))
          (aggregate
            (run maxConcurrent.toNat sched (initial destDir timeStart env urls)).received).totalSize
        else .blocked := by
  unfold ConcurrentFileDownloader
  simp only [not_lt.mpr hcap, if_false]

/-- C9. For every capacity `maxConcurrent ≥ 1`, every URL list, every outcome of the
library calls and every schedule, in the state the goroutines of the call reach: the number
of workers that hold a limiter slot equals the number of elements buffered in `limiter` and
is at most `maxConcurrent`; every worker whose next event is part of its transfer (file
creation, request, removal, send of a Result, body copy, deferred closes) holds a slot, so
the workers executing their transfer are at most `maxConcurrent`; a worker that has run to
its end holds no slot. Every worker trace is one send on the limiter, then events that do
not touch it, then one receive from it (run by `defer`, also when the worker panics), then
events that touch neither the limiter nor the transfer: the whole transfer lies between the
acquire and the release. -/
theorem limiter_bound (urls : List String) (destDir : String) (maxConcurrent timeStart : Int)
    (env : Nat → StepResults) (sched : List Nat) (hcap : 1 ≤ maxConcurrent) :
    ((run maxConcurrent.toNat sched (initial destDir timeStart env urls)).holders : Int)
        ≤ maxConcurrent
    ∧ (run maxConcurrent.toNat sched (initial destDir timeStart env urls)).holders
        = (run maxConcurrent.toNat sched (initial destDir timeStart env urls)).limiter
    ∧ (∀ t ∈ (run maxConcurrent.toNat sched (initial destDir timeStart env urls)).tasks,
        t.pending = [] → t.holding = false)
    ∧ (∀ url w, ∃ pre post,
        worker destDir timeStart url w = Event.acquire :: pre ++ Event.release :: post
        ∧ noLimiter pre = true ∧ noLimiter post = true ∧ noTransfer post = true)
    ∧ (∀ t ∈ (run maxConcurrent.toNat sched (initial destDir timeStart env urls)).tasks,
        t.transferring = true → t.holding = true)
    ∧ ((run maxConcurrent.toNat sched (initial destDir timeStart env urls)).transferring : Int)
        ≤ maxConcurrent
    ∧ ConcurrentFileDownloader none urls destDir maxConcurrent timeStart env sched
      = (if (run maxConcurrent.toNat sched (initial destDir timeStart env urls)).crashed = true
        then .crashed
        else if (run maxConcurrent.toNat sched (initial destDir timeStart env urls)).tasks.all
            (fun t => t.pending.isEmpty) = true
        then .returned
          (finish (aggregate
            (run maxConcurrent.toNat sched (initial destDir timeStart env urls)).received))
          (aggregate
            (run maxConcurrent.toNat sched (initial destDir timeStart env urls)).received).totalSize
        else .blocked) := by
  have hinv := run_inv maxConcurrent.toNat sched _
    (initial_inv maxConcurrent.toNat destDir timeStart env urls)
  obtain ⟨h1, h2, h3⟩ := hinv
  have hle : (run maxConcurrent.toNat sched (initial destDir timeStart env urls)).transferring
      ≤ (run maxConcurrent.toNat sched (initial destDir timeStart env urls)).holders :=
    List.countP_mono_left (fun t ht htr => transferring_holds t (h1 t ht) htr)
  refine ⟨?_, h2, fun t ht hp => finished_not_holding t (h1 t ht) hp, ?_,
    fun t ht htr => transferring_holds t (h1 t ht) htr, ?_,
    outcome_of_run urls destDir maxConcurrent timeStart env sched (by omega)⟩
  · rw [h2]
    omega
  · intro url w
    obtain ⟨p, hp, hr⟩ := worker_shape destDir timeStart url w
    obtain ⟨pre, post, hsplit, hpre, hpost, htr⟩ := releasesOnce_split p hr
    exact ⟨pre, post, by rw [hp, hsplit]; rfl, hpre, hpost, htr⟩
  · omega

/-- Two URLs and one slot: after both workers were offered four moves each, one holds the
slot and is about to copy the body, the other still waits for the slot. -/
theorem limiter_bound_witness :
    (1 : Int) ≤ 1
    ∧ (run 1 [0, 1, 0, 1, 0, 1, 0, 1]
        (initial "downloads" 0 (fun _ => downloaded) [urlA, urlB])).holders = 1
    ∧ (run 1 [0, 1, 0, 1, 0, 1, 0, 1]
        (initial "downloads" 0 (fun _ => downloaded) [urlA, urlB])).transferring = 1
    ∧ ((run (1 : Int).toNat [0, 1, 0, 1, 0, 1, 0, 1]
        (initial "downloads" 0 (fun _ => downloaded) [urlA, urlB])).holders : Int) ≤ 1
    ∧ ((run (1 : Int).toNat [0, 1, 0, 1, 0, 1, 0, 1]
        (initial "downloads" 0 (fun _ => downloaded) [urlA, urlB])).transferring : Int) ≤ 1 :=
  ⟨by decide, by decide, by decide,
    (limiter_bound [urlA, urlB] "downloads" 1 0 (fun _ => downloaded) [0, 1, 0, 1, 0, 1, 0, 1]
      (by decide)).1,
    (limiter_bound [urlA, urlB] "downloads" 1 0 (fun _ => downloaded) [0, 1, 0, 1, 0, 1, 0, 1]
      (by decide)).2.2.2.2.2.1⟩

end Downloader
